import Mathlib

/-!
# HyperBloom wire-protocol engine: shallow embedding and verification

Shallow embedding of the HyperBloom protocol engine
(`src/lib/protocol/parser.js` and `src/lib/protocol/stream.js`, message
schema from the protobuf declarations), together with theorems settling
the frozen claims about its specification.

Conventions of the embedding:
* byte strings, keys, nonces and hashes are `List Nat`;
* trust links travel as opaque encoded buffers, modelled as opaque `Nat`
  tokens, so a chain is a `List Nat`;
* the injected collaborators (keyed hash, signatures, the
  `hyperbloom-chain` verifier/issuer) are a `Crypto` record of abstract
  functions, mirroring how the JS code receives them as dependencies;
* JS exceptions become `Except` errors; stateful methods become functions
  `StreamState → Except StreamErr StreamState`.
-/

namespace HyperBloom

/-- `MAX_PENDING_SIZE` in `parser.js`: 256 KiB cap on a frame and on the
unparsed inbound buffer. -/
def MAX_PENDING_SIZE : Nat := 256 * 1024

/-- `MAX_CHAIN_LENGTH` from `hyperbloom-constants`: a chain holds at most
5 trust links. -/
def MAX_CHAIN_LENGTH : Nat := 5

/-- `EMPTY_HASH` in `stream.js`: `Buffer.alloc(HASH_SIZE)`, 32 zero bytes. -/
def EMPTY_HASH : List Nat := List.replicate 32 0

/-! ## Length-varint parsing (`Parser.prototype._parseLength`) -/

/-- Outcome of the varint loop of `Parser.prototype._parseLength`.
`done value rest` is a successful parse (state moves to the body state,
`waiting = value`); `tooBig` is the `Message length is too big` throw after
the state was set; `more value shift` is the `return false` path when the
buffer ran out mid-varint (the `_varint` state persists); `overflow` is the
`varint doesn't fit into 32-bit value` throw. -/
inductive VarintResult where
  | done (value : Nat) (rest : List Nat)
  | tooBig (value : Nat) (rest : List Nat)
  | more (value shift : Nat)
  | overflow
deriving DecidableEq, Repr

/-- The varint loop of `Parser.prototype._parseLength` (parser.js 177-202),
one byte at a time over the pending buffer: `value |= (b & 0x7f) << shift;
shift += 7; if (shift >= 25) throw; if (!(b & 0x80)) { waiting = value >>> 0;
if (waiting > MAX_PENDING_SIZE) throw; return true; }`.  The accumulated
`value`/`shift` pair is the persistent `this._varint` state, `0`/`0` at the
start of each varint. -/
def parseVarint : Nat → Nat → List Nat → VarintResult
  | value, shift, [] => .more value shift
  | value, shift, b :: rest =>
    let value2 := value ||| ((b &&& 0x7f) <<< shift)
    let shift2 := shift + 7
    if 25 ≤ shift2 then .overflow
    else if b &&& 0x80 = 0 then
      let w := value2 % 2 ^ 32
      if MAX_PENDING_SIZE < w then .tooBig w rest else .done w rest
    else parseVarint value2 shift2 rest

/-! ## Post-`Open` message dispatch (`Parser.prototype._parse`, msg:body) -/

/-- Fatal parser errors thrown in `Parser.prototype._parse`, plus the
`ProtocolViolation` of the `Data` invariants. -/
inductive ParserErr where
  | handshakeExpected
  | duplicateHandshake
  | protocolViolation
deriving DecidableEq, Repr

/-- Where a decoded known-id message is routed by `_parse`: `Handshake` to
`_onHandshake`, `Data` to `_onData`, `Link` to `_onLink`, the rest to a
`message` event. -/
inductive PEvent where
  | handshakeEv
  | dataEv
  | linkEv
  | messageEv (id : Nat)
deriving DecidableEq, Repr

/-- The routing of a known message id in `_parse` (parser.js 123-163):
0 `Handshake`, 1 `Sync`, 2 `FilterOptions`, 3 `Data`, 4 `Request`, 5 `Link`. -/
def evFor (id : Nat) : PEvent :=
  if id = 0 then .handshakeEv
  else if id = 3 then .dataEv
  else if id = 5 then .linkEv
  else .messageEv id

/-- One msg:body step of `Parser.prototype._parse`, abstracted to the leading
varint `id` of the frame body.  `got` is the persistent `this._gotHandshake`
flag.  An id outside `{0..5}` falls through every branch of the id dispatch
and is silently ignored (`return true`) before the handshake-order checks;
a known id is checked against `_gotHandshake` (`Handshake must be the first
message after Open` / `Handshake must be sent only once`), after which
`_gotHandshake` is set to `true` and the message is routed. -/
def dispatchStep (got : Bool) (id : Nat) : Except ParserErr (Bool × Option PEvent) :=
  if 5 < id then .ok (got, none)
  else if got = false ∧ id ≠ 0 then .error .handshakeExpected
  else if got = true ∧ id = 0 then .error .duplicateHandshake
  else .ok (true, some (evFor id))

/-- Iterated dispatch over the ids of the successive post-`Open` frame bodies
of one direction, starting from `_gotHandshake = got`; collects the routed
messages in wire order.  Errors are fatal: processing stops. -/
def runDispatch (got : Bool) : List Nat → Except ParserErr (Bool × List PEvent)
  | [] => .ok (got, [])
  | id :: rest =>
    match dispatchStep got id with
    | .error e => .error e
    | .ok (g2, ev) =>
      match runDispatch g2 rest with
      | .error e => .error e
      | .ok (g3, evs) => .ok (g3, ev.toList ++ evs)

/-- The ids of a frame sequence that the dispatch recognises (`{0..5}`). -/
def knownIds (ids : List Nat) : List Nat :=
  ids.filter (fun i => decide (i ≤ 5))

/-- Number of `Handshake` messages routed. -/
def hsCount (evs : List PEvent) : Nat :=
  (evs.filter (fun e => decide (e = PEvent.handshakeEv))).length

/-- Modelled from the spec: the `Data`-reception invariant check is not under
`src` — `Parser.prototype._onData` (parser.js 255-257) is a stub meant to be
overridden, and `stream.js` supplies no override.  Per the spec ("On `Data`
reception: enforce invariants (non-empty list, no duplicates, no empty
elements); on violation fail with `ProtocolViolation`; otherwise emit
`message` event"), the received `values` list is checked and either rejected
or emitted unchanged. -/
def onDataModel (values : List (List Nat)) : Except ParserErr (List (List Nat)) :=
  if values = [] then .error .protocolViolation
  else if values.any List.isEmpty then .error .protocolViolation
  else if ¬ values.Nodup then .error .protocolViolation
  else .ok values

/-! ## Session state and operations (`stream.js`) -/

/-- `Sync` body (protobuf: required `filter`, `size`, `n`, `seed`; optional
`limit`, `range` with required `start` and optional `end`).  Required fields
are `Option`s so that the `encodingLength` presence validation is
expressible. -/
structure SyncBody where
  filter : Option (List Nat)
  size : Option Nat
  n : Option Nat
  seed : Option Nat
  limit : Option Nat
  range : Option (List Nat × Option (List Nat))
deriving DecidableEq, Repr

/-- `FilterOptions` body (protobuf: required `size`, `n`). -/
structure FilterOptionsBody where
  size : Option Nat
  n : Option Nat
deriving DecidableEq, Repr

/-- `Data` body (protobuf: repeated `values`). -/
structure DataBody where
  values : List (List Nat)
deriving DecidableEq, Repr

/-- `Request` body (protobuf: required `start`; optional `end` — named
`stop` here — and optional uint32 `limit`). -/
structure RequestBody where
  start : Option (List Nat)
  stop : Option (List Nat)
  limit : Option Nat
deriving DecidableEq, Repr

/-- A message sent through the public send API (`sync`, `filterOptions`,
`data`, `request`). -/
inductive OutMsg where
  | sync (b : SyncBody)
  | filterOptions (b : FilterOptionsBody)
  | data (b : DataBody)
  | request (b : RequestBody)
deriving DecidableEq, Repr

/-- A frame pushed to the outbound wire, identified by its plaintext content
(every post-`Open` frame is additionally XORed with the outbound keystream
before the push; the keystream is injective on positions so frame identity is
preserved). -/
inductive Frame where
  | openF (feed nonce : List Nat)
  | handshakeF (id : List Nat) (chain : List Nat) (signature : List Nat)
  | apiF (m : OutMsg)
  | linkF (link : Nat)
deriving DecidableEq, Repr

/-- Events emitted by the `Stream`. -/
inductive Event where
  | secureEv (id : List Nat) (chain : List Nat)
  | chainUpdate (chain : List Nat)
  | closeEv
deriving DecidableEq, Repr

/-- Errors surfaced by `Stream` operations: assertion failures in `start`,
the `hyperbloom-chain` verification throws, the `Feed mismatch` error event,
and the synchronous `encodingLength` throw of the send API
(`CallerMisuse`). -/
inductive StreamErr where
  | assertFailed
  | invalidChain
  | untrustedPeer
  | feedMismatch
  | callerMisuse
deriving DecidableEq, Repr

/-- The injected cryptographic collaborators, by contract: `hash` is the
keyed `crypto_generichash` (`Stream.prototype._hash`), `sign` the detached
signature over a hash with a private key, `chainVerify` the
`hyperbloom-chain` `verify(chain, messageHash, signature)` (`true` = no
throw), and `issueLink` the composite of the `parseLink` loop and
`issueLink` call of `_onHandshake` (stream.js 201-213), producing the opaque
encoded link token sent on the wire. -/
structure Crypto where
  hash : List Nat → List Nat
  sign : List Nat → List Nat → List Nat
  chainVerify : List Nat → List Nat → List Nat → Bool
  issueLink : List Nat → List Nat → Nat

/-- The mutable state of a `Stream` (stream.js constructor): credentials,
the `secure` and `_destroyed` flags, handshake nonce state, remote identity,
the pre-secure send queue, plus the observable outbound wire and emitted
events.  In JS the credential fields are `null` before `start`
(here `none`), and `chain` is `null` (here `[]`, never read before
`start` because the parser gates every message behind the handshake). -/
structure StreamState where
  id : List Nat
  feedKey : Option (List Nat)
  feed : Option (List Nat)
  privateKey : Option (List Nat)
  chain : List Nat
  secure : Bool
  destroyed : Bool
  localNonce : Option (List Nat)
  nonceHash : Option (List Nat)
  reverseHash : Option (List Nat)
  remoteId : Option (List Nat)
  remoteChain : Option (List Nat)
  queue : List OutMsg
  wire : List Frame
  events : List Event
deriving DecidableEq, Repr

/-- The options accepted by `Stream.prototype.start`. -/
structure StartOptions where
  feedKey : List Nat
  privateKey : List Nat
  chain : List Nat
  discoveryKey : Option (List Nat)
deriving DecidableEq, Repr

/-- A freshly constructed `Stream` with session id `id`. -/
def initState (id : List Nat) : StreamState :=
  { id := id, feedKey := none, feed := none, privateKey := none, chain := [],
    secure := false, destroyed := false, localNonce := none, nonceHash := none,
    reverseHash := none, remoteId := none, remoteChain := none, queue := [],
    wire := [], events := [] }

/-- The synchronous `Type.encodingLength(content)` validation performed by
`_secureSend` ("Just to validate that all required fields are present"): the
protobuf `encodingLength` of the schema throws exactly when a required field
is absent.  Optional fields — in particular `Request.limit` — are never
checked. -/
def encLenOk : OutMsg → Bool
  | .sync b => b.filter.isSome && b.size.isSome && b.n.isSome && b.seed.isSome
  | .filterOptions b => b.size.isSome && b.n.isSome
  | .data _ => true
  | .request b => b.start.isSome

/-- `Stream.prototype._send`: frame the message, XOR with the outbound
keystream and push it. -/
def sendFrame (st : StreamState) (f : Frame) : StreamState :=
  { st with wire := st.wire ++ [f] }

/-- `Stream.prototype._secureSend` (stream.js 233-244): validate field
presence synchronously; queue the operation when not yet `secure`; send
otherwise. -/
def secureSend (st : StreamState) (m : OutMsg) : Except StreamErr StreamState :=
  if encLenOk m = false then .error .callerMisuse
  else if st.secure = false then .ok { st with queue := st.queue ++ [m] }
  else .ok (sendFrame st (.apiF m))

/-- `Stream.prototype.start` (stream.js 248-288): validate key and chain
sizes, derive the discovery feed, pre-verify the chain by signing the
all-zero hash, then emit the outbound `Open` frame with a fresh local nonce
(`_open`).  (In the source a throwing chain verification leaves the
credential fields already assigned; no claim observes that partially
assigned state, so a failing `start` is modelled as leaving the state
unchanged.) -/
def startS (c : Crypto) (o : StartOptions) (nonce : List Nat) (st : StreamState) :
    Except StreamErr StreamState :=
  if o.feedKey.length ≠ 32 then .error .assertFailed
  else if o.privateKey.length ≠ 64 then .error .assertFailed
  else if MAX_CHAIN_LENGTH < o.chain.length then .error .assertFailed
  else if (o.discoveryKey.getD (c.hash o.feedKey)).length ≠ 32 then .error .assertFailed
  else if c.chainVerify o.chain EMPTY_HASH (c.sign EMPTY_HASH o.privateKey) = false then
    .error .invalidChain
  else .ok { st with
    feedKey := some o.feedKey,
    feed := some (o.discoveryKey.getD (c.hash o.feedKey)),
    privateKey := some o.privateKey,
    chain := o.chain,
    localNonce := some nonce,
    wire := st.wire ++ [Frame.openF (o.discoveryKey.getD (c.hash o.feedKey)) nonce] }

/-- `Stream.prototype._onOpen` (stream.js 149-175), in the started case:
check the remote feed, compute the paired hash `H(local ‖ remote)` and the
reverse paired hash `H(remote ‖ local)`, zero the nonces, emit the local
`Handshake` signed over the paired hash (`_handshake`), and resume the
parser. -/
def onOpen (c : Crypto) (st : StreamState) (f rn : List Nat) :
    Except StreamErr StreamState :=
  if st.feed ≠ some f then .error .feedMismatch
  else .ok { st with
    nonceHash := some (c.hash (st.localNonce.getD [] ++ rn)),
    reverseHash := some (c.hash (rn ++ st.localNonce.getD [])),
    localNonce := none,
    wire := st.wire ++ [Frame.handshakeF st.id st.chain
      (c.sign (c.hash (st.localNonce.getD [] ++ rn)) (st.privateKey.getD []))] }

/-- The state recorded by `_onHandshake` right before the queue drain: the
remote identity stored, `secure` flipped, the `secure` event emitted and the
queue handed off (`this._queue = null`). -/
def secureBase (st : StreamState) (rid : List Nat) (rchain : List Nat) : StreamState :=
  { st with
    remoteId := some rid
    remoteChain := some rchain
    secure := true
    events := st.events ++ [Event.secureEv rid rchain]
    queue := [] }

/-- `Stream.prototype._onHandshake` (stream.js 184-215): verify the remote
chain and signature against the reverse paired hash, record the remote
identity, flip `secure`, emit the `secure` event, drain the send queue in
FIFO order (each entry re-enters `_secureSend`, whose field validation
already passed at queue time, and now sends), and only then, when
`remote.chain.length - 1 > chain.length`, issue and send a chain-shortening
`Link`. -/
def onHandshake (c : Crypto) (st : StreamState) (rid : List Nat)
    (rchain : List Nat) (rsig : List Nat) : Except StreamErr StreamState :=
  if c.chainVerify rchain (st.reverseHash.getD []) rsig = false then
    .error .untrustedPeer
  else if (rchain.length : Int) - 1 ≤ (st.chain.length : Int) then
    .ok (st.queue.foldl (fun s m => sendFrame s (Frame.apiF m))
      (secureBase st rid rchain))
  else
    .ok (sendFrame
      (st.queue.foldl (fun s m => sendFrame s (Frame.apiF m))
        (secureBase st rid rchain))
      (Frame.linkF (c.issueLink rchain (st.privateKey.getD []))))

/-- `Stream.prototype._onLink` (stream.js 217-231): ignore the link unless
`chain.length - 1 > remote.chain.length`; otherwise build the candidate
chain `remote.chain ‖ link`, verify it by signing the all-zero hash, replace
the local chain and emit `chain-update`.  (`this._remote.chain` is non-null
here because the parser admits `Link` only after the handshake.) -/
def onLink (c : Crypto) (st : StreamState) (link : Nat) :
    Except StreamErr StreamState :=
  if (st.chain.length : Int) - 1 ≤ ((st.remoteChain.getD []).length : Int) then .ok st
  else if c.chainVerify ((st.remoteChain.getD []) ++ [link]) EMPTY_HASH
      (c.sign EMPTY_HASH (st.privateKey.getD [])) = false then
    .error .invalidChain
  else .ok { st with
    chain := (st.remoteChain.getD []) ++ [link],
    events := st.events ++ [Event.chainUpdate ((st.remoteChain.getD []) ++ [link])] }

/-- `Stream.prototype.destroy` (stream.js 290-297): a second call returns
immediately; the first sets `_destroyed` and emits `close` — nothing else
("no-op for now"). -/
def destroyS (st : StreamState) : StreamState :=
  if st.destroyed then st
  else { st with destroyed := true, events := st.events ++ [Event.closeEv] }

/-- The externally triggered operations of a session: the public API
(`start`, the four sends, `destroy`) and the parser callbacks (`open`,
`handshake`, `link` reception). -/
inductive Act where
  | start (o : StartOptions) (nonce : List Nat)
  | recvOpen (feed nonce : List Nat)
  | api (m : OutMsg)
  | recvHandshake (rid rchain rsig : List Nat)
  | recvLink (link : Nat)
  | destroyA
deriving DecidableEq, Repr

/-- Dispatch one operation on the session state. -/
def step (c : Crypto) (st : StreamState) : Act → Except StreamErr StreamState
  | .start o nonce => startS c o nonce st
  | .recvOpen f rn => onOpen c st f rn
  | .api m => secureSend st m
  | .recvHandshake rid rchain rsig => onHandshake c st rid rchain rsig
  | .recvLink l => onLink c st l
  | .destroyA => .ok (destroyS st)

/-- Run a sequence of operations; the first error is fatal. -/
def run (c : Crypto) : StreamState → List Act → Except StreamErr StreamState
  | st, [] => .ok st
  | st, a :: rest =>
    match step c st a with
    | .error e => .error e
    | .ok st' => run c st' rest

/-- The frames an operation appended to the wire: the suffix of `st'.wire`
past the frames already present in `st.wire`. -/
def newFrames (st st' : StreamState) : List Frame :=
  st'.wire.drop st.wire.length

/-- Whether a frame is a `Link` message. -/
def isLinkFrame : Frame → Bool
  | .linkF _ => true
  | _ => false

/-- Whether some frame of the list is a `Link` message. -/
def hasLink (fs : List Frame) : Bool := fs.any isLinkFrame

/-! ## Concrete instances used by witnesses and counterexamples -/

/-- A concrete instantiation of the injected collaborators, used to
evaluate the model on closed inputs. -/
def cryptoW : Crypto :=
  { hash := fun _ => List.replicate 32 0
    sign := fun m k => m ++ k
    chainVerify := fun _ _ _ => true
    issueLink := fun _ _ => 7 }

/-- A just-verified session holding a 3-link local chain, facing a remote
3-link chain (so `remote.chain.length - 1 ≤ chain.length`). -/
def stC1cex : StreamState :=
  { initState [0] with
    chain := [4, 5, 6]
    privateKey := some [1]
    reverseHash := some [2] }

/-- The state after `_onHandshake` on `stC1cex` with remote chain
`[1, 2, 3]`. -/
def stC1cexPost : StreamState :=
  ((onHandshake cryptoW stC1cex [0] [1, 2, 3] [0]).toOption).getD stC1cex

/-- A just-verified session holding an empty local chain, facing a remote
3-link chain (so `remote.chain.length - 1 > chain.length`). -/
def stC1w : StreamState :=
  { initState [0] with
    chain := []
    privateKey := some [1]
    reverseHash := some [2] }

/-- The state after `_onHandshake` on `stC1w` with remote chain
`[1, 2, 3]`. -/
def stC1wPost : StreamState :=
  ((onHandshake cryptoW stC1w [0] [1, 2, 3] [0]).toOption).getD stC1w

/-- Concrete `start` options: 32-byte feed key, 64-byte private key, empty
chain. -/
def oW : StartOptions :=
  { feedKey := List.replicate 32 0, privateKey := List.replicate 64 0,
    chain := [], discoveryKey := none }

/-- A concrete `Request` body with only the required `start` field. -/
def reqA : RequestBody := { start := some [97], stop := none, limit := none }

/-- A concrete `Request` body with `limit` explicitly present and `0`. -/
def reqZero : RequestBody := { start := some [97], stop := none, limit := some 0 }

/-- A session run: `start`, remote `Open`, one API send queued before
`secure`, then the remote `Handshake` carrying a 3-link chain, which makes
the engine issue a chain-shortening `Link`. -/
def c4acts : List Act :=
  [Act.start oW [5], Act.recvOpen (List.replicate 32 0) [6],
   Act.api (OutMsg.request reqA), Act.recvHandshake [9] [1, 2, 3] [0]]

/-- The session state at the end of `c4acts`. -/
def c4res : StreamState :=
  ((run cryptoW (initState [8]) c4acts).toOption).getD (initState [8])

/-- A secure session on which `destroy()` has been called. -/
def stC5 : StreamState :=
  (destroyS { initState [0] with secure := true })

/-- A session with a 3-link local chain and a 1-link remote chain, about to
receive a chain-shortening `Link`. -/
def stC8 : StreamState :=
  { initState [0] with
    chain := [1, 2, 3]
    remoteChain := some [9]
    privateKey := some [1] }

/-- `stC8` after `_onLink` with link token `4`. -/
def stC8post : StreamState :=
  ((step cryptoW stC8 (Act.recvLink 4)).toOption).getD stC8

/-- `start` options with a 6-link chain (one above `MAX_CHAIN_LENGTH`). -/
def oBad : StartOptions :=
  { feedKey := List.replicate 32 0, privateKey := List.replicate 64 0,
    chain := [1, 2, 3, 4, 5, 6], discoveryKey := none }

/-- Peer A of a concrete handshake: local nonce `[3]`. -/
def stWA : StreamState :=
  { initState [1] with
    feed := some [0]
    localNonce := some [3]
    privateKey := some [7]
    chain := [] }

/-- Peer B of a concrete handshake: local nonce `[4]`. -/
def stWB : StreamState :=
  { initState [2] with
    feed := some [0]
    localNonce := some [4]
    privateKey := some [8]
    chain := [] }

/-- Peer A after receiving B's `Open` (nonce `[4]`). -/
def stWA2 : StreamState := ((onOpen cryptoW stWA [0] [4]).toOption).getD stWA

/-- Peer B after receiving A's `Open` (nonce `[3]`). -/
def stWB2 : StreamState := ((onOpen cryptoW stWB [0] [3]).toOption).getD stWB

/-! ## Helper lemmas -/

/-- Masking with `0x7f` keeps a byte below 128. -/
theorem and127_lt (b : Nat) : b &&& 127 < 128 :=
  Nat.lt_succ_of_le Nat.and_le_right

/-- Accumulating new bits above `k` known-zero high bits is addition: the JS
`value |= rest << shift` adds `rest * 2 ^ shift` whenever `value < 2 ^ shift`. -/
theorem lor_shiftLeft_eq_add (k : Nat) :
    ∀ a b : Nat, a < 2 ^ k → a ||| (b <<< k) = a + b * 2 ^ k := by
  induction k with
  | zero =>
    intro a b h
    simp only [pow_zero, Nat.lt_one_iff] at h
    subst h
    simp [Nat.shiftLeft_eq]
  | succ k ih =>
    intro a b h
    have hb : b <<< (k + 1) = Nat.bit false (b <<< k) := by
      simp only [Nat.shiftLeft_eq, Nat.bit, cond_false, pow_succ]
      ring
    have hd : a.div2 < 2 ^ k := by
      rw [Nat.div2_val]
      rw [pow_succ] at h
      omega
    have hsum := Nat.bodd_add_div2 a
    calc a ||| b <<< (k + 1)
        = Nat.bit a.bodd a.div2 ||| Nat.bit false (b <<< k) := by
          rw [Nat.bit_decomp a, hb]
      _ = Nat.bit (a.bodd || false) (a.div2 ||| b <<< k) := Nat.lor_bit _ _ _ _
      _ = Nat.bit a.bodd (a.div2 + b * 2 ^ k) := by rw [ih _ _ hd, Bool.or_false]
      _ = a + b * 2 ^ (k + 1) := by
          rw [Nat.bit_val, pow_succ, ← Nat.mul_assoc]
          set x := b * 2 ^ k with hx
          omega

/-! ## C3: length-varint decoding -/

/-- Claim C3 (corrected), counterexample: `[0x81, 0x80, 0x80, 0x00]` is a
terminated 4-byte varint encoding (of the value 1, well below both 2³² and
`MAX_PENDING_SIZE`), yet `_parseLength` fails with `VarintOverflow` instead
of decoding it: the `shift >= 25` check fires on the fourth byte before the
terminating byte is recognised.  This refutes "accepts every terminated
varint encoding of 1 through 5 bytes" and "fails with VarintOverflow only
for encodings longer than 5 bytes". -/
theorem varint_claim_cex :
    parseVarint 0 0 [129, 128, 128, 0] = VarintResult.overflow ∧
    parseVarint 0 0 [129, 128, 128, 0] ≠ VarintResult.done 1 [] ∧
    (129 &&& 128 ≠ 0 ∧ 128 &&& 128 ≠ 0 ∧ (0 : Nat) &&& 128 = 0) := by
  decide

/-- Claim C3 (amended): length-varint decoding accepts every terminated
varint encoding of 1 through 3 bytes, decoding it to its base-128 value
(reporting `FrameTooLarge` rather than accepting when the value exceeds
`MAX_PENDING_SIZE`), and fails with `VarintOverflow` exactly when the first
three bytes all carry the continuation bit and a fourth byte arrives —
whether or not that fourth byte terminates the encoding. -/
theorem varint_three_byte_limit :
    (∀ b0 rest, b0 &&& 128 = 0 →
        parseVarint 0 0 (b0 :: rest) = .done (b0 &&& 127) rest) ∧
    (∀ b0 b1 rest, b0 &&& 128 ≠ 0 → b1 &&& 128 = 0 →
        parseVarint 0 0 (b0 :: b1 :: rest)
          = .done ((b0 &&& 127) + (b1 &&& 127) * 128) rest) ∧
    (∀ b0 b1 b2 rest, b0 &&& 128 ≠ 0 → b1 &&& 128 ≠ 0 → b2 &&& 128 = 0 →
        parseVarint 0 0 (b0 :: b1 :: b2 :: rest)
          = if MAX_PENDING_SIZE <
                (b0 &&& 127) + (b1 &&& 127) * 128 + (b2 &&& 127) * 16384
            then .tooBig ((b0 &&& 127) + (b1 &&& 127) * 128 + (b2 &&& 127) * 16384) rest
            else .done ((b0 &&& 127) + (b1 &&& 127) * 128 + (b2 &&& 127) * 16384) rest) ∧
    (∀ b0 b1 b2 b3 rest, b0 &&& 128 ≠ 0 → b1 &&& 128 ≠ 0 → b2 &&& 128 ≠ 0 →
        parseVarint 0 0 (b0 :: b1 :: b2 :: b3 :: rest) = .overflow) ∧
    (∀ bs, parseVarint 0 0 bs = .overflow →
        ∃ b0 b1 b2 b3 rest, bs = b0 :: b1 :: b2 :: b3 :: rest ∧
          b0 &&& 128 ≠ 0 ∧ b1 &&& 128 ≠ 0 ∧ b2 &&& 128 ≠ 0) := by
  have hv1 : ∀ b0 : Nat, (0 : Nat) ||| (b0 &&& 127) <<< 0 = b0 &&& 127 := by
    intro b0
    simp [Nat.shiftLeft_eq]
  have hv2 : ∀ b0 b1 : Nat,
      (b0 &&& 127) ||| (b1 &&& 127) <<< 7 = (b0 &&& 127) + (b1 &&& 127) * 128 := by
    intro b0 b1
    exact lor_shiftLeft_eq_add 7 _ _ (lt_of_lt_of_le (and127_lt b0) (by norm_num))
  have hv3 : ∀ b0 b1 b2 : Nat,
      ((b0 &&& 127) + (b1 &&& 127) * 128) ||| (b2 &&& 127) <<< 14
        = (b0 &&& 127) + (b1 &&& 127) * 128 + (b2 &&& 127) * 16384 := by
    intro b0 b1 b2
    have hlt : (b0 &&& 127) + (b1 &&& 127) * 128 < 2 ^ 14 := by
      have h0 := and127_lt b0
      have h1 := and127_lt b1
      norm_num
      omega
    have := lor_shiftLeft_eq_add 14 ((b0 &&& 127) + (b1 &&& 127) * 128) (b2 &&& 127) hlt
    norm_num at this ⊢
    omega
  refine ⟨?_, ?_, ?_, ?_, ?_⟩
  · intro b0 rest h0
    have hb0 := and127_lt b0
    simp [parseVarint, h0, hv1, MAX_PENDING_SIZE,
      Nat.mod_eq_of_lt (show b0 &&& 127 < 4294967296 by omega),
      show ¬ (262144 < b0 &&& 127) from by omega]
  · intro b0 b1 rest h0 h1
    have hb0 := and127_lt b0
    have hb1 := and127_lt b1
    simp [parseVarint, h0, h1, hv1, hv2, MAX_PENDING_SIZE,
      Nat.mod_eq_of_lt
        (show (b0 &&& 127) + (b1 &&& 127) * 128 < 4294967296 by omega),
      show ¬ (262144 < (b0 &&& 127) + (b1 &&& 127) * 128) from by omega]
  · intro b0 b1 b2 rest h0 h1 h2
    have hb0 := and127_lt b0
    have hb1 := and127_lt b1
    have hb2 := and127_lt b2
    simp [parseVarint, h0, h1, h2, hv1, hv2, hv3, MAX_PENDING_SIZE,
      Nat.mod_eq_of_lt
        (show (b0 &&& 127) + (b1 &&& 127) * 128 + (b2 &&& 127) * 16384
            < 4294967296 by omega)]
  · intro b0 b1 b2 b3 rest h0 h1 h2
    simp [parseVarint, h0, h1, h2]
  · intro bs h
    match bs with
    | [] => simp [parseVarint] at h
    | [b0] =>
      by_cases h0 : b0 &&& 128 = 0 <;>
        simp [parseVarint, h0] at h <;> split at h <;> simp_all
    | [b0, b1] =>
      by_cases h0 : b0 &&& 128 = 0
      · simp [parseVarint, h0] at h
        split at h <;> simp_all
      · by_cases h1 : b1 &&& 128 = 0 <;>
          simp [parseVarint, h0, h1] at h <;> split at h <;> simp_all
    | [b0, b1, b2] =>
      by_cases h0 : b0 &&& 128 = 0
      · simp [parseVarint, h0] at h
        split at h <;> simp_all
      · by_cases h1 : b1 &&& 128 = 0
        · simp [parseVarint, h0, h1] at h
          split at h <;> simp_all
        · by_cases h2 : b2 &&& 128 = 0
          · simp [parseVarint, h0, h1, h2] at h
            split at h <;> simp_all
          · simp [parseVarint, h0, h1, h2] at h
    | b0 :: b1 :: b2 :: b3 :: rest =>
      refine ⟨b0, b1, b2, b3, rest, rfl, ?_, ?_, ?_⟩
      · intro hc
        simp [parseVarint, hc] at h
        split at h <;> simp_all
      · intro hc
        by_cases h0 : b0 &&& 128 = 0
        · simp [parseVarint, h0] at h
          split at h <;> simp_all
        · simp [parseVarint, h0, hc] at h
          split at h <;> simp_all
      · intro hc
        by_cases h0 : b0 &&& 128 = 0
        · simp [parseVarint, h0] at h
          split at h <;> simp_all
        · by_cases h1 : b1 &&& 128 = 0
          · simp [parseVarint, h0, h1] at h
            split at h <;> simp_all
          · simp [parseVarint, h0, h1, hc] at h
            split at h <;> simp_all

/-- Witness for the amended C3: the canonical 2-byte varint `[0xAC, 0x02]`
decodes to `300`. -/
theorem varint_three_byte_limit_w :
    parseVarint 0 0 [172, 2] = VarintResult.done 300 [] := by
  have h := varint_three_byte_limit.2.1 172 2 [] (by decide) (by decide)
  simpa using h

/-! ## C2: `Data` reception invariants -/

/-- Claim C2 (confirmed against the spec-modelled `_onData`): a received
`Data.values` list is emitted as a `message` event exactly when it is
non-empty, contains no empty element and no duplicates; otherwise the
session fails with `ProtocolViolation`. -/
theorem data_reception_iff (values : List (List Nat)) :
    (onDataModel values = .ok values ↔
      values ≠ [] ∧ (∀ v ∈ values, v ≠ []) ∧ values.Nodup) ∧
    (onDataModel values = .error .protocolViolation ↔
      ¬ (values ≠ [] ∧ (∀ v ∈ values, v ≠ []) ∧ values.Nodup)) := by
  by_cases h1 : values = []
  · subst h1
    simp [onDataModel]
  · by_cases h2 : values.any List.isEmpty
    · have : ¬ (∀ v ∈ values, v ≠ []) := by
        simp only [List.any_eq_true, List.isEmpty_iff] at h2
        obtain ⟨v, hv, hveq⟩ := h2
        intro hall
        exact hall v hv hveq
      simp [onDataModel, h1, h2, this]
    · have hall : ∀ v ∈ values, v ≠ [] := by
        intro v hv hveq
        exact h2 (List.any_eq_true.mpr ⟨v, hv, List.isEmpty_iff.mpr hveq⟩)
      by_cases h3 : values.Nodup
      · simp [onDataModel, h1, h2, h3, hall]
        exact ⟨hall, fun hmem => hall [] hmem rfl⟩
      · simp [onDataModel, h1, h2, h3, hall]

/-! ## Dispatch lemmas (C7, C10) -/

/-- An unrecognised id is skipped: the run over the remaining frames is
unchanged. -/
theorem runDispatch_unknown_cons (got : Bool) (u : Nat) (rest : List Nat)
    (hu : 5 < u) :
    runDispatch got (u :: rest) = runDispatch got rest := by
  cases h : runDispatch got rest <;>
    simp [runDispatch, dispatchStep, hu, h]

/-- Dispatching a known id that passes the handshake-order checks routes the
message and continues with `_gotHandshake = true`. -/
theorem runDispatch_known_cons (got : Bool) (i : Nat) (rest : List Nat)
    (hle : ¬ 5 < i) (hc1 : ¬ (got = false ∧ i ≠ 0)) (hc2 : ¬ (got = true ∧ i = 0)) :
    runDispatch got (i :: rest) =
      match runDispatch true rest with
      | .error e => .error e
      | .ok (g3, evs) => .ok (g3, evFor i :: evs) := by
  cases h : runDispatch true rest <;>
    simp [runDispatch, dispatchStep, hle, hc1, hc2, h]

/-- A second `Handshake` id anywhere after the flag is set is fatal. -/
theorem runDispatch_true_dup (ids : List Nat) (h0 : 0 ∈ knownIds ids) :
    runDispatch true ids = .error .duplicateHandshake := by
  induction ids with
  | nil => simp [knownIds] at h0
  | cons i rest ih =>
    by_cases hi : 5 < i
    · rw [runDispatch_unknown_cons true i rest hi]
      apply ih
      have hle : ¬ i ≤ 5 := Nat.not_le.mpr hi
      simpa [knownIds, List.filter_cons, hle] using h0
    · by_cases hz : i = 0
      · subst hz
        simp [runDispatch, dispatchStep]
      · have hle : i ≤ 5 := Nat.not_lt.mp hi
        have hcons : knownIds (i :: rest) = i :: knownIds rest := by
          simp [knownIds, List.filter_cons, hle]
        rw [hcons] at h0
        have h0' : 0 ∈ knownIds rest := by
          rcases List.mem_cons.mp h0 with h | h
          · exact absurd h.symm hz
          · exact h
        have := ih h0'
        simp [runDispatch, dispatchStep, hi, hz, this]

/-- If no error occurs from `_gotHandshake = true`, no further `Handshake`
is routed. -/
theorem runDispatch_true_count (ids : List Nat) :
    ∀ b evs, runDispatch true ids = .ok (b, evs) → hsCount evs = 0 := by
  induction ids with
  | nil =>
    intro b evs h
    simp only [runDispatch, Except.ok.injEq, Prod.mk.injEq] at h
    obtain ⟨-, hev⟩ := h
    simp [hsCount, ← hev]
  | cons i rest ih =>
    intro b evs h
    by_cases hi : 5 < i
    · rw [runDispatch_unknown_cons true i rest hi] at h
      exact ih b evs h
    · by_cases hz : i = 0
      · subst hz
        simp [runDispatch, dispatchStep] at h
      · rw [runDispatch_known_cons true i rest hi (by simp) (by simp [hz])] at h
        cases hr : runDispatch true rest with
        | error e => rw [hr] at h; simp at h
        | ok p =>
          obtain ⟨g3, evs2⟩ := p
          rw [hr] at h
          simp only [Except.ok.injEq, Prod.mk.injEq] at h
          obtain ⟨-, hev⟩ := h
          have hz2 := ih g3 evs2 hr
          simp only [hsCount] at hz2 ⊢
          rw [← hev]
          have hne : ¬ (evFor i = PEvent.handshakeEv) := by
            simp only [evFor, if_neg hz]
            split
            · simp
            · split <;> simp
          simp [List.filter_cons, hne, hz2]

/-- A nonzero first known id is fatal (`HandshakeExpected`). -/
theorem runDispatch_first_nonzero (ids : List Nat) :
    ∀ k t, knownIds ids = k :: t → k ≠ 0 →
      runDispatch false ids = .error .handshakeExpected := by
  induction ids with
  | nil => intro k t hk _; simp [knownIds] at hk
  | cons i rest ih =>
    intro k t hk hkz
    by_cases hi : 5 < i
    · rw [runDispatch_unknown_cons false i rest hi]
      refine ih k t ?_ hkz
      have hle : ¬ i ≤ 5 := Nat.not_le.mpr hi
      simpa [knownIds, List.filter_cons, hle] using hk
    · have hle : i ≤ 5 := Nat.not_lt.mp hi
      have hcons : knownIds (i :: rest) = i :: knownIds rest := by
        simp [knownIds, List.filter_cons, hle]
      rw [hcons, List.cons.injEq] at hk
      obtain ⟨hik, -⟩ := hk
      subst hik
      simp [runDispatch, dispatchStep, hi, hkz]

/-- Exactly one `Handshake` is routed on any error-free run that sees at
least one known id. -/
theorem runDispatch_false_count (ids : List Nat) :
    ∀ b evs, runDispatch false ids = .ok (b, evs) →
      hsCount evs = if knownIds ids = [] then 0 else 1 := by
  induction ids with
  | nil =>
    intro b evs h
    simp only [runDispatch, Except.ok.injEq, Prod.mk.injEq] at h
    obtain ⟨-, hev⟩ := h
    simp [hsCount, knownIds, ← hev]
  | cons i rest ih =>
    intro b evs h
    by_cases hi : 5 < i
    · rw [runDispatch_unknown_cons false i rest hi] at h
      have hle : ¬ i ≤ 5 := Nat.not_le.mpr hi
      rw [ih b evs h]
      simp [knownIds, List.filter_cons, hle]
    · by_cases hz : i = 0
      · subst hz
        rw [runDispatch_known_cons false 0 rest hi (by simp) (by simp)] at h
        cases hr : runDispatch true rest with
        | error e => rw [hr] at h; simp at h
        | ok p =>
          obtain ⟨g3, evs2⟩ := p
          rw [hr] at h
          simp only [Except.ok.injEq, Prod.mk.injEq] at h
          obtain ⟨-, hev⟩ := h
          have hz2 := runDispatch_true_count rest g3 evs2 hr
          simp only [hsCount] at hz2 ⊢
          rw [← hev]
          simp [List.filter_cons, evFor, hz2, knownIds]
      · exact absurd h (by simp [runDispatch, dispatchStep, hi, hz])

/-! ## C7: handshake first and exactly once -/

/-- Claim C7 (confirmed): on every inbound post-`Open` frame sequence, a
first decoded known-id message other than `Handshake` fails fatally with
`HandshakeExpected`; a second decoded `Handshake` fails fatally with
`DuplicateHandshake`; and an error-free sequence routes exactly one
`Handshake` (none only when no known id occurs at all). -/
theorem handshake_first_and_once (ids : List Nat) :
    (∀ k t, knownIds ids = k :: t → k ≠ 0 →
        runDispatch false ids = .error .handshakeExpected) ∧
    (∀ t, knownIds ids = 0 :: t → 0 ∈ t →
        runDispatch false ids = .error .duplicateHandshake) ∧
    (∀ b evs, runDispatch false ids = .ok (b, evs) →
        hsCount evs = if knownIds ids = [] then 0 else 1) := by
  refine ⟨runDispatch_first_nonzero ids, ?_, runDispatch_false_count ids⟩
  intro t hk h0
  induction ids with
  | nil => simp [knownIds] at hk
  | cons i rest ih =>
    by_cases hi : 5 < i
    · rw [runDispatch_unknown_cons false i rest hi]
      refine ih ?_
      have hle : ¬ i ≤ 5 := Nat.not_le.mpr hi
      simpa [knownIds, List.filter_cons, hle] using hk
    · have hle : i ≤ 5 := Nat.not_lt.mp hi
      have hcons : knownIds (i :: rest) = i :: knownIds rest := by
        simp [knownIds, List.filter_cons, hle]
      rw [hcons, List.cons.injEq] at hk
      obtain ⟨hik, ht⟩ := hk
      subst hik
      have hdup := runDispatch_true_dup rest (ht ▸ h0)
      simp [runDispatch, dispatchStep, hi, hdup]

/-- Witness for C7: the sequence whose first known id is `1` (`Sync`) fails
with `HandshakeExpected`. -/
theorem handshake_first_and_once_w :
    runDispatch false [1] = .error .handshakeExpected :=
  (handshake_first_and_once [1]).1 1 [] rfl (by decide)

/-! ## C10: unknown ids are skipped -/

/-- Claim C10 (confirmed): a post-`Open` frame whose leading varint id lies
outside `{0..5}` is consumed and silently ignored even before any
`Handshake`: the dispatch returns no error and no routed message, the
`_gotHandshake` flag is unchanged, and the run over the following frames is
exactly the run without the unknown frame — so the next known-id frame must
still be the `Handshake`. -/
theorem unknown_id_ignored (g : Bool) (u : Nat) (rest : List Nat) (hu : 5 < u) :
    dispatchStep g u = .ok (g, none) ∧
    runDispatch g (u :: rest) = runDispatch g rest := by
  constructor
  · simp [dispatchStep, hu]
  · exact runDispatch_unknown_cons g u rest hu

/-- Witness for C10: id `6` before the handshake is skipped and the rest of
the stream is processed as if it were absent. -/
theorem unknown_id_ignored_w :
    dispatchStep false 6 = .ok (false, none) ∧
    runDispatch false [6, 0] = runDispatch false [0] :=
  unknown_id_ignored false 6 [0] (by decide)

/-! ## Session lemmas -/

/-- One step of `run` unfolded. -/
theorem run_cons (c : Crypto) (st : StreamState) (a : Act) (rest : List Act) :
    run c st (a :: rest) =
      match step c st a with
      | .error e => .error e
      | .ok st' => run c st' rest := rfl

/-- Draining the queue appends exactly the queued messages, in order, to the
wire and changes nothing else. -/
theorem drain_eq (q : List OutMsg) (s : StreamState) :
    q.foldl (fun s m => sendFrame s (Frame.apiF m)) s
      = { s with wire := s.wire ++ q.map Frame.apiF } := by
  induction q generalizing s with
  | nil => simp
  | cons m t ih =>
    rw [List.foldl_cons, ih]
    simp [sendFrame, List.append_assoc]

/-- Draining the queue leaves the `secure` flag as it was. -/
theorem drain_secure_eq (q : List OutMsg) (s : StreamState) :
    (q.foldl (fun s m => sendFrame s (Frame.apiF m)) s).secure = s.secure := by
  rw [drain_eq]

/-- No queued API message is a `Link` frame. -/
theorem hasLink_map_api (q : List OutMsg) : hasLink (q.map Frame.apiF) = false := by
  induction q with
  | nil => rfl
  | cons m t ih =>
    simp only [List.map_cons, hasLink, List.any_cons, isLinkFrame, Bool.false_or]
    exact ih

/-- Characterisation of a successful `start`: all validations passed (in
particular the chain is within `MAX_CHAIN_LENGTH`) and the state holds the
credentials with the `Open` frame emitted. -/
theorem startS_ok (c : Crypto) (o : StartOptions) (n : List Nat)
    (st st' : StreamState) (h : startS c o n st = Except.ok st') :
    o.chain.length ≤ MAX_CHAIN_LENGTH ∧
    st' = { st with
      feedKey := some o.feedKey
      feed := some (o.discoveryKey.getD (c.hash o.feedKey))
      privateKey := some o.privateKey
      chain := o.chain
      localNonce := some n
      wire := st.wire ++ [Frame.openF (o.discoveryKey.getD (c.hash o.feedKey)) n] } := by
  unfold startS at h
  split at h
  · simp at h
  · split at h
    · simp at h
    · split at h
      · simp at h
      · rename_i hchain
        split at h
        · simp at h
        · split at h
          · simp at h
          · exact ⟨Nat.not_lt.mp hchain, (Except.ok.inj h).symm⟩

/-- Characterisation of a successful `_onOpen`. -/
theorem onOpen_ok (c : Crypto) (st st' : StreamState) (f rn : List Nat)
    (h : onOpen c st f rn = Except.ok st') :
    st.feed = some f ∧
    st' = { st with
      nonceHash := some (c.hash (st.localNonce.getD [] ++ rn))
      reverseHash := some (c.hash (rn ++ st.localNonce.getD []))
      localNonce := none
      wire := st.wire ++ [Frame.handshakeF st.id st.chain
        (c.sign (c.hash (st.localNonce.getD [] ++ rn)) (st.privateKey.getD []))] } := by
  unfold onOpen at h
  split at h
  · simp at h
  · rename_i hf
    exact ⟨not_not.mp hf, (Except.ok.inj h).symm⟩

/-- Characterisation of a successful `_onHandshake`: verification passed,
the queue is drained to the wire in order, and the chain-shortening `Link`
follows the drained queue exactly when `remote.chain.length - 1 >
chain.length`. -/
theorem onHandshake_ok (c : Crypto) (st st' : StreamState)
    (rid rchain rsig : List Nat)
    (h : onHandshake c st rid rchain rsig = Except.ok st') :
    c.chainVerify rchain (st.reverseHash.getD []) rsig = true ∧
    st' = { st with
      remoteId := some rid
      remoteChain := some rchain
      secure := true
      events := st.events ++ [Event.secureEv rid rchain]
      queue := []
      wire := st.wire ++ st.queue.map Frame.apiF ++
        (if (rchain.length : Int) - 1 ≤ (st.chain.length : Int) then []
         else [Frame.linkF (c.issueLink rchain (st.privateKey.getD []))]) } := by
  unfold onHandshake at h
  split at h
  · simp at h
  · rename_i hv
    refine ⟨by simpa using hv, ?_⟩
    split at h
    · rename_i hc
      rw [← Except.ok.inj h, drain_eq]
      simp [secureBase, hc]
    · rename_i hc
      rw [← Except.ok.inj h, drain_eq]
      simp [secureBase, sendFrame, hc, List.append_assoc]

/-- Queueing a block of valid API sends before `secure` only extends the
queue, in API-call order. -/
theorem run_api_append (c : Crypto) (q : List OutMsg) (tail : List Act) :
    ∀ st, st.secure = false → (∀ m ∈ q, encLenOk m = true) →
      run c st (q.map Act.api ++ tail)
        = run c { st with queue := st.queue ++ q } tail := by
  induction q with
  | nil =>
    intro st _ _
    simp only [List.map_nil, List.nil_append, List.append_nil]
  | cons m t ih =>
    intro st hsec hval
    have hm : encLenOk m = true := hval m (List.mem_cons_self m t)
    have hstep : secureSend st m = Except.ok { st with queue := st.queue ++ [m] } := by
      simp [secureSend, hm, hsec]
    simp only [List.map_cons, List.cons_append, run_cons, step, hstep]
    rw [ih _ (by simp [hsec]) (fun x hx => hval x (List.mem_cons_of_mem m hx))]
    simp [List.append_assoc]

/-! ## C1: the chain-shortening condition -/

/-- Claim C1 (corrected): after a successful `Secure` transition the engine
issues a chain-shortening `Link` exactly when
`remote.chain.length - 1 > chain.length` — the opposite direction of the
claimed inequality. -/
theorem link_issue_iff (c : Crypto) (st st' : StreamState)
    (rid rchain rsig : List Nat)
    (h : onHandshake c st rid rchain rsig = Except.ok st') :
    (hasLink (newFrames st st') = true ↔
      (st.chain.length : Int) < (rchain.length : Int) - 1) := by
  obtain ⟨-, rfl⟩ := onHandshake_ok c st st' rid rchain rsig h
  by_cases hc : (rchain.length : Int) - 1 ≤ (st.chain.length : Int)
  · simp only [newFrames, hc, if_true, List.append_nil, List.drop_left,
      hasLink_map_api]
    simp only [Bool.false_eq_true, false_iff, not_lt]
    omega
  · simp only [newFrames, hc, if_false, List.append_assoc, List.drop_left]
    simp [hasLink, List.any_append, isLinkFrame, hasLink_map_api]
    omega

/-- Claim C1, counterexample to the claim as stated: with a remote chain of
3 links and a local chain of 3 links we have
`remote.chain.length - 1 ≤ chain.length`, where the claim asserts a `Link`
is issued — but the code returns early and sends nothing. -/
theorem link_issue_claim_cex :
    ((([1, 2, 3] : List Nat).length : Int) - 1 ≤ (stC1cex.chain.length : Int)) ∧
    onHandshake cryptoW stC1cex [0] [1, 2, 3] [0] = Except.ok stC1cexPost ∧
    hasLink (newFrames stC1cex stC1cexPost) = false := by
  refine ⟨by decide, rfl, by decide⟩

/-- Witness for the amended C1: with an empty local chain and a 3-link
remote chain (`remote.chain.length - 1 > chain.length`) a `Link` is
issued. -/
theorem link_issue_iff_w : hasLink (newFrames stC1w stC1wPost) = true :=
  (link_issue_iff cryptoW stC1w stC1wPost [0] [1, 2, 3] [0] rfl).mpr (by decide)

/-! ## C5: destroy -/

/-- Claim C5, counterexample to the claim as stated: after `destroy()` the
session is not inert — a `request` on a destroyed (and secure) session
still produces an outbound frame, because no API entry point consults the
`_destroyed` flag. -/
theorem destroy_inert_cex :
    stC5.destroyed = true ∧
    secureSend stC5 (OutMsg.request reqA)
      = Except.ok (sendFrame stC5 (Frame.apiF (OutMsg.request reqA))) ∧
    (sendFrame stC5 (Frame.apiF (OutMsg.request reqA))).wire ≠ stC5.wire := by
  refine ⟨rfl, rfl, by decide⟩

/-- Claim C5 (amended): only `destroy()` itself is a no-op after the first
call (it is idempotent, and the first call only sets the `_destroyed` flag
and emits `close`); the other API entry points never read the flag, so
`sync`/`filterOptions`/`data`/`request` and `start` behave on a destroyed
session exactly as on a live one. -/
theorem destroy_flag_only :
    (∀ st : StreamState, destroyS (destroyS st) = destroyS st) ∧
    (∀ st : StreamState, (destroyS st).destroyed = true ∧
      (destroyS st).queue = st.queue ∧ (destroyS st).wire = st.wire ∧
      (destroyS st).secure = st.secure ∧ (destroyS st).chain = st.chain) ∧
    (∀ (st : StreamState) (m : OutMsg),
      secureSend { st with destroyed := true } m
        = Except.map (fun s => { s with destroyed := true }) (secureSend st m)) ∧
    (∀ (c : Crypto) (o : StartOptions) (n : List Nat) (st : StreamState),
      startS c o n { st with destroyed := true }
        = Except.map (fun s => { s with destroyed := true }) (startS c o n st)) := by
  refine ⟨?_, ?_, ?_, ?_⟩
  · intro st
    by_cases hd : st.destroyed
    · simp [destroyS, hd]
    · simp [destroyS, hd]
  · intro st
    by_cases hd : st.destroyed
    · simp [destroyS, hd]
    · simp [destroyS, hd]
  · intro st m
    by_cases he : encLenOk m = false
    · simp [secureSend, he, Except.map]
    · by_cases hs : st.secure = false
      · simp [secureSend, he, hs, Except.map]
      · simp [secureSend, sendFrame, he, hs, Except.map]
  · intro c o n st
    by_cases h1 : o.feedKey.length ≠ 32
    · simp [startS, h1, Except.map]
    · by_cases h2 : o.privateKey.length ≠ 64
      · simp [startS, h1, h2, Except.map]
      · by_cases h3 : MAX_CHAIN_LENGTH < o.chain.length
        · simp [startS, h1, h2, h3, Except.map]
        · by_cases h4 : (o.discoveryKey.getD (c.hash o.feedKey)).length ≠ 32
          · simp [startS, h1, h2, h3, h4, Except.map]
          · by_cases h5 : c.chainVerify o.chain EMPTY_HASH
                (c.sign EMPTY_HASH o.privateKey) = false
            · simp [startS, h1, h2, h3, h4, h5, Except.map]
            · simp [startS, h1, h2, h3, h4, h5, Except.map]

/-! ## C8: the chain-length invariant -/

/-- Claim C8 (confirmed): the local chain never exceeds `MAX_CHAIN_LENGTH`:
a `start` with a longer chain fails synchronously, and every operation —
in particular the chain replacement performed on `Link` reception —
preserves `chain.length ≤ MAX_CHAIN_LENGTH` (the replacement even yields a
strictly shorter chain). -/
theorem chain_bound (c : Crypto) (st st' : StreamState) (a : Act)
    (o : StartOptions) (n : List Nat)
    (hlen : st.chain.length ≤ MAX_CHAIN_LENGTH)
    (h : step c st a = Except.ok st') :
    st'.chain.length ≤ MAX_CHAIN_LENGTH ∧
    (MAX_CHAIN_LENGTH < o.chain.length →
      startS c o n st = Except.error StreamErr.assertFailed) := by
  constructor
  · cases a with
    | start o2 n2 =>
      obtain ⟨hb, rfl⟩ := startS_ok c o2 n2 st st' h
      simpa using hb
    | recvOpen f rn =>
      obtain ⟨-, rfl⟩ := onOpen_ok c st st' f rn h
      simpa using hlen
    | api m =>
      simp only [step, secureSend] at h
      split at h
      · simp at h
      · split at h
        · rw [← Except.ok.inj h]
          simpa using hlen
        · rw [← Except.ok.inj h]
          simpa [sendFrame] using hlen
    | recvHandshake rid rchain rsig =>
      obtain ⟨-, rfl⟩ := onHandshake_ok c st st' rid rchain rsig h
      simpa using hlen
    | recvLink l =>
      simp only [step, onLink] at h
      split at h
      · rw [← Except.ok.inj h]
        exact hlen
      · split at h
        · simp at h
        · rename_i hc hv
          rw [← Except.ok.inj h]
          simp only [List.length_append, List.length_singleton]
          simp only [MAX_CHAIN_LENGTH] at hlen ⊢
          omega
    | destroyA =>
      simp only [step] at h
      rw [← Except.ok.inj h]
      unfold destroyS
      split
      · exact hlen
      · simpa using hlen
  · intro hgt
    simp [startS, hgt]

/-- Witness for C8: a 3-link chain shrinks to 2 links on `Link` reception,
and a 6-link chain is rejected at `start`. -/
theorem chain_bound_w :
    stC8post.chain.length ≤ MAX_CHAIN_LENGTH ∧
    (MAX_CHAIN_LENGTH < oBad.chain.length →
      startS cryptoW oBad [0] stC8 = Except.error StreamErr.assertFailed) :=
  chain_bound cryptoW stC8 stC8post (Act.recvLink 4) oBad [0] (by decide) rfl

/-! ## C9: request validation -/

/-- Claim C9, counterexample to the claim as stated: a `request` whose body
carries `limit` explicitly present and equal to `0` is not rejected — the
`encodingLength` validation only checks required fields, so the call is
accepted and queued (here, on a pre-`secure` session). -/
theorem request_limit_zero_cex :
    reqZero.limit = some 0 ∧
    secureSend (initState [0]) (OutMsg.request reqZero)
      = Except.ok { initState [0] with queue := [OutMsg.request reqZero] } := by
  exact ⟨rfl, rfl⟩

/-- Claim C9 (amended): a `request` is rejected synchronously — before
queuing or sending — exactly when its required `start` field is missing;
the optional `limit` field is never validated, so `limit = 0` explicitly
present is accepted like any other value. -/
theorem request_reject_iff (st : StreamState) (b : RequestBody) :
    (secureSend st (OutMsg.request b) = Except.error StreamErr.callerMisuse ↔
      b.start = none) ∧
    encLenOk (OutMsg.request b) = b.start.isSome := by
  refine ⟨?_, rfl⟩
  cases hb : b.start with
  | none => simp [secureSend, encLenOk, hb]
  | some v =>
    cases hsec : st.secure <;> simp [secureSend, encLenOk, hb, hsec]

/-! ## C4: wire order around the `Secure` transition -/

/-- Claim C4 (corrected): in a session that starts, receives the remote
`Open`, queues valid API sends before `secure`, and then receives a
verifying remote `Handshake`, the wire carries the engine's `Open` and
`Handshake` first, then the queued frames in API-call order, and only then —
not before the queued frames — the chain-shortening `Link` when one is
issued. -/
theorem queued_order (c : Crypto) (st0 st1 : StreamState) (o : StartOptions)
    (nonce rn : List Nat) (q : List OutMsg) (rid rchain rsig : List Nat)
    (hq : st0.queue = []) (hsec : st0.secure = false)
    (hval : ∀ m ∈ q, encLenOk m = true)
    (h : run c st0 ([Act.start o nonce,
        Act.recvOpen (o.discoveryKey.getD (c.hash o.feedKey)) rn]
        ++ q.map Act.api ++ [Act.recvHandshake rid rchain rsig])
      = Except.ok st1) :
    st1.wire = st0.wire
      ++ [Frame.openF (o.discoveryKey.getD (c.hash o.feedKey)) nonce,
          Frame.handshakeF st0.id o.chain
            (c.sign (c.hash (nonce ++ rn)) o.privateKey)]
      ++ q.map Frame.apiF
      ++ (if (rchain.length : Int) - 1 ≤ (o.chain.length : Int) then []
          else [Frame.linkF (c.issueLink rchain o.privateKey)]) := by
  simp only [List.cons_append, List.nil_append] at h
  rw [run_cons] at h
  cases h1 : step c st0 (Act.start o nonce) with
  | error e => rw [h1] at h; simp at h
  | ok sA =>
    rw [h1] at h
    simp only [] at h
    obtain ⟨-, rfl⟩ := startS_ok c o nonce st0 sA h1
    rw [run_cons] at h
    cases h2 : step c _ (Act.recvOpen (o.discoveryKey.getD (c.hash o.feedKey)) rn) with
    | error e => rw [h2] at h; simp at h
    | ok sB =>
      rw [h2] at h
      simp only [] at h
      obtain ⟨-, rfl⟩ := onOpen_ok c _ sB _ rn h2
      rw [run_api_append c q [Act.recvHandshake rid rchain rsig] _ (by simpa using hsec)
        hval] at h
      rw [run_cons] at h
      cases h3 : step c _ (Act.recvHandshake rid rchain rsig) with
      | error e => rw [h3] at h; simp at h
      | ok sC =>
        rw [h3] at h
        simp only [run] at h
        obtain ⟨-, rfl⟩ := onHandshake_ok c _ sC rid rchain rsig h3
        rw [← Except.ok.inj h]
        simp [hq, List.append_assoc]

/-- Claim C4, counterexample to the claim as stated: in the concrete run
`c4acts` (one queued `request`, remote chain of 3 links against an empty
local chain) the wire is `[Open, Handshake, request, Link]` — the
chain-shortening `Link` is emitted after the queued frame, not before it,
because `_onHandshake` drains the queue before evaluating the shortening
rule. -/
theorem queued_order_cex :
    c4res.wire.get? 2 = some (Frame.apiF (OutMsg.request reqA)) ∧
    c4res.wire.get? 3 = some (Frame.linkF 7) ∧
    ¬ (∀ i j, c4res.wire.get? i = some (Frame.linkF 7) →
        c4res.wire.get? j = some (Frame.apiF (OutMsg.request reqA)) → i < j) := by
  refine ⟨rfl, rfl, ?_⟩
  intro hall
  have h32 := hall 3 2 rfl rfl
  omega

/-- Witness for the amended C4 on the concrete run `c4acts`. -/
theorem queued_order_w :
    c4res.wire = (initState [8]).wire
      ++ [Frame.openF (oW.discoveryKey.getD (cryptoW.hash oW.feedKey)) [5],
          Frame.handshakeF (initState [8]).id oW.chain
            (cryptoW.sign (cryptoW.hash ([5] ++ [6])) oW.privateKey)]
      ++ [OutMsg.request reqA].map Frame.apiF
      ++ (if (([1, 2, 3] : List Nat).length : Int) - 1 ≤ (oW.chain.length : Int)
          then [] else [Frame.linkF (cryptoW.issueLink [1, 2, 3] oW.privateKey)]) :=
  queued_order cryptoW (initState [8]) c4res oW [5] [6] [OutMsg.request reqA]
    [9] [1, 2, 3] [0] rfl rfl (by decide) rfl

/-! ## C6: paired-hash agreement -/

/-- Claim C6 (confirmed): when two sessions open against each other (A with
local nonce `nA` receiving B's nonce `nB`, and vice versa), A's paired hash
`H(nA ‖ nB)` equals B's reverse paired hash and vice versa; A's emitted
`Handshake` signs exactly the hash B verifies against, so — under the
injected signature/chain contract that a correctly signed handshake
verifies — both `_onHandshake` calls succeed and both sessions reach
`secure`. -/
theorem paired_hash_agreement (c : Crypto) (stA stB stA' stB' : StreamState)
    (f nA nB : List Nat)
    (hA : stA.localNonce = some nA) (hB : stB.localNonce = some nB)
    (hoA : onOpen c stA f nB = Except.ok stA')
    (hoB : onOpen c stB f nA = Except.ok stB')
    (hvA : c.chainVerify stA.chain (c.hash (nA ++ nB))
        (c.sign (c.hash (nA ++ nB)) (stA.privateKey.getD [])) = true)
    (hvB : c.chainVerify stB.chain (c.hash (nB ++ nA))
        (c.sign (c.hash (nB ++ nA)) (stB.privateKey.getD [])) = true) :
    stA'.nonceHash = stB'.reverseHash ∧
    stB'.nonceHash = stA'.reverseHash ∧
    stA'.wire.getLast? = some (Frame.handshakeF stA.id stA.chain
      (c.sign (c.hash (nA ++ nB)) (stA.privateKey.getD []))) ∧
    (∃ stB2, onHandshake c stB' stA.id stA.chain
        (c.sign (c.hash (nA ++ nB)) (stA.privateKey.getD [])) = Except.ok stB2 ∧
      stB2.secure = true) ∧
    (∃ stA2, onHandshake c stA' stB.id stB.chain
        (c.sign (c.hash (nB ++ nA)) (stB.privateKey.getD [])) = Except.ok stA2 ∧
      stA2.secure = true) := by
  obtain ⟨-, rfl⟩ := onOpen_ok c stA stA' f nB hoA
  obtain ⟨-, rfl⟩ := onOpen_ok c stB stB' f nA hoB
  refine ⟨by simp [hA, hB], by simp [hA, hB], ?_, ?_, ?_⟩
  · simp [hA, List.getLast?_concat]
  · simp only [onHandshake]
    rw [if_neg (by simp [hB, hvA])]
    split
    · exact ⟨_, rfl, (drain_secure_eq _ _).trans rfl⟩
    · exact ⟨_, rfl, (drain_secure_eq _ _).trans rfl⟩
  · simp only [onHandshake]
    rw [if_neg (by simp [hA, hvB])]
    split
    · exact ⟨_, rfl, (drain_secure_eq _ _).trans rfl⟩
    · exact ⟨_, rfl, (drain_secure_eq _ _).trans rfl⟩

/-- Witness for C6 at the concrete pair `stWA`/`stWB` (nonces `[3]`/`[4]`),
with the concrete collaborators `cryptoW`. -/
theorem paired_hash_agreement_w :
    stWA2.nonceHash = stWB2.reverseHash ∧
    stWB2.nonceHash = stWA2.reverseHash ∧
    stWA2.wire.getLast? = some (Frame.handshakeF stWA.id stWA.chain
      (cryptoW.sign (cryptoW.hash ([3] ++ [4])) (stWA.privateKey.getD []))) ∧
    (∃ stB2, onHandshake cryptoW stWB2 stWA.id stWA.chain
        (cryptoW.sign (cryptoW.hash ([3] ++ [4])) (stWA.privateKey.getD []))
          = Except.ok stB2 ∧
      stB2.secure = true) ∧
    (∃ stA2, onHandshake cryptoW stWA2 stWB.id stWB.chain
        (cryptoW.sign (cryptoW.hash ([4] ++ [3])) (stWB.privateKey.getD []))
          = Except.ok stA2 ∧
      stA2.secure = true) :=
  paired_hash_agreement cryptoW stWA stWB stWA2 stWB2 [0] [3] [4]
    rfl rfl rfl rfl rfl rfl

end HyperBloom









